import Mathlib

set_option linter.unusedVariables false
set_option linter.unreachableTactic false
set_option linter.unusedTactic false
set_option linter.unnecessarySeqFocus false
set_option linter.unnecessarySimpa false

/-!
Verification of the AGENT_SUPPORT macro engine: a shallow embedding of the
gesture detector, profile compiler, traffic controller, timing randomizer and
sequence executor, with theorems settling the spec claims about them.

Timestamps and durations are modelled as natural-number milliseconds; the
JavaScript `Math.random()` draws are modelled as rational parameters in
`[0, 1)` supplied explicitly to the embedded functions.
-/

namespace AgentSupport

/-! JavaScript string primitives, modelled over the underlying character
lists so that every definition evaluates inside the kernel.  Key strings in
this program are ASCII, for which these agree with the JS methods. -/

/-- JS `String.prototype.toUpperCase` (ASCII). -/
def jsToUpper (s : String) : String := ⟨s.data.map Char.toUpper⟩

/-- JS `String.prototype.toLowerCase` (ASCII). -/
def jsToLower (s : String) : String := ⟨s.data.map Char.toLower⟩

/-- Whitespace test used by JS `trim`. -/
def isJsWhitespace (c : Char) : Bool :=
  c = ' ' || c = '\t' || c = '\n' || c = '\r'

/-- JS `String.prototype.trim`: strip whitespace from both ends. -/
def jsTrim (s : String) : String :=
  ⟨((s.data.dropWhile isJsWhitespace).reverse.dropWhile isJsWhitespace).reverse⟩

def splitAux (sep : Char) : List Char → List Char → List (List Char)
  | [], acc => [acc.reverse]
  | c :: rest, acc =>
    if c = sep then acc.reverse :: splitAux sep rest []
    else splitAux sep rest (c :: acc)

/-- JS `String.prototype.split` with a one-character separator (the program
only ever splits on `"+"`). -/
def jsSplit (sep : Char) (s : String) : List String :=
  (splitAux sep s.data []).map fun l => ⟨l⟩

def startsWithList : List Char → List Char → Bool
  | [], _ => true
  | _ :: _, [] => false
  | p :: ps, c :: cs => p = c && startsWithList ps cs

/-- JS `String.prototype.startsWith`. -/
def strStartsWith (s pat : String) : Bool :=
  startsWithList pat.data s.data

def containsSub (pat : List Char) : List Char → Bool
  | [] => pat.isEmpty
  | c :: rest => startsWithList pat (c :: rest) || containsSub pat rest

/-- JS `String.prototype.includes`. -/
def strIncludes (s pat : String) : Bool :=
  containsSub pat.data s.data

/-- JS `randomRange(min, max)` from `utils.ts`:
`Math.floor(Math.random() * (max - min + 1)) + min`, with the `Math.random()`
draw `r ∈ [0, 1)` made an explicit parameter. -/
def randomRange (min max : Int) (r : ℚ) : Int :=
  ⌊r * ((max : ℚ) - (min : ℚ) + 1)⌋ + min

/-- `extractRawKey` from `utils.ts`: split on `+`, trim the parts, take the
last part, uppercase it. -/
def extractRawKey (key : String) : String :=
  jsToUpper (((jsSplit '+' key).map jsTrim).getLastD "")

/-- `CompiledProfile` from `types.ts`: the two raw-key sets produced by the
profile compiler.  JS `Set`s are modelled as insertion-ordered duplicate-free
lists. -/
structure CompiledProfile where
  conundrumKeys : List String := []
  safeKeys : List String := []
deriving Repr, DecidableEq

/-- State of `TrafficController` (`trafficController.ts`): the single
crossing-token field and the FIFO wait queue of `(raw key, timestamp)`
entries. -/
structure TCState where
  crossingKey : Option String := none
  queue : List (String × Nat) := []
deriving Repr, DecidableEq

namespace TrafficController

/-- `TrafficController.shouldWait`: wait while any crossing token is held or
the head of the queue is not this raw key (`queue[0]?.key !== raw` is `true`
when the queue is empty). -/
def shouldWait (s : TCState) (key : String) : Bool :=
  let raw := key.toUpper
  s.crossingKey.isSome || (s.queue.head?.map Prod.fst != some raw)

/-- Entry phase of `TrafficController.requestCrossing`: extract the raw key;
a non-conundrum key returns immediately (second component `true`), otherwise
the caller is appended to the wait queue and starts waiting. -/
def requestCrossingStart (cp : CompiledProfile) (s : TCState) (key : String)
    (now : Nat) : TCState × Bool :=
  let raw := extractRawKey key
  if cp.conundrumKeys.contains raw then
    ({ s with queue := s.queue ++ [(raw, now)] }, false)
  else
    (s, true)

/-- One check of the `while (this.shouldWait(raw))` loop in
`requestCrossing`: the call completes (acquires the token) exactly when
`shouldWait` is false; otherwise it sleeps and stays waiting (`none`). -/
def requestCrossingFinish (s : TCState) (raw : String) : Option TCState :=
  if shouldWait s raw then none
  else some { s with crossingKey := some raw }

/-- `TrafficController.releaseCrossing`: clear the token if we hold it and
pop the queue head if it is this raw key. -/
def releaseCrossing (s : TCState) (key : String) : TCState :=
  let raw := extractRawKey key
  let s1 := if s.crossingKey = some raw then { s with crossingKey := none } else s
  match s1.queue with
  | [] => s1
  | (k, _) :: rest => if k = raw then { s1 with queue := rest } else s1

/-- Number of crossing tokens currently held by the controller: the
`crossingKey` field holds zero or one raw key. -/
def heldTokens (s : TCState) : Nat :=
  match s.crossingKey with
  | none => 0
  | some _ => 1

/-- The sleep-duration draw of the wait loop in
`src/trafficController.ts` / `dist/trafficController.js`:
`sleep(randomRange(29, 36))`. -/
def requestCrossingWaitDraw (r : ℚ) : Int :=
  randomRange 29 36 r

end TrafficController

/-- The selection loop of `HumanRandomizer.generate`
(`humanRandomizer.ts`): walk the per-value weights accumulating
`cumulative`; return the first value whose cumulative weight reaches the
roll, defaulting to the initial `result = min`. -/
def generateScan : List (Nat × ℚ) → ℚ → ℚ → Nat → Nat
  | [], _, _, res => res
  | (v, w) :: rest, roll, cum, res =>
    if roll ≤ cum + w then v else generateScan rest roll (cum + w) res

/-- `HumanRandomizer.generate(min, max, rangeName)`: build a weight for every
value in `[min, max]` and sample by cumulative weight.  The per-value weight
(the product of the gaussian-bias, history-correction and hash-noise layers,
whose floating-point values never affect which values are candidates) and the
`Math.random() * totalWeight` roll are explicit parameters. -/
def generate (min max : Nat) (weightFn : Nat → ℚ) (roll : ℚ) : Nat :=
  let vals := List.range' min (max + 1 - min)
  generateScan (vals.map fun v => (v, weightFn v)) roll 0 min

/-- `getHumanTrafficWait` from `humanRandomizer.ts`:
`generate(10, 30, "traffic_wait")`; this is the sleep draw of the
`requestCrossing` wait loop in the `humanRandomizer`-based traffic-controller
variant. -/
def getHumanTrafficWait (weightFn : Nat → ℚ) (roll : ℚ) : Nat :=
  generate 10 30 weightFn roll

/-! The per-key gesture state machine (`gestureDetector.ts`,
`KeyGestureStateMachine`).  The `gestureTimer` field is omitted: in this
source version it is only ever cleared, never set.  Emission through
`queueMicrotask` is modelled by returning the emitted gesture alongside the
successor state; the orchestrator collects it into its pending-emission
queue. -/

/-- Press classification from `gestureDetector.ts` (`PressRecord.pressType`). -/
inductive PressType
  | normal
  | long
  | super_long
deriving Repr, DecidableEq

/-- `PressRecord` from `gestureDetector.ts`. -/
structure PressRecord where
  timestamp : Nat
  pressType : PressType
deriving Repr, DecidableEq

/-- `GestureSettings` from `types.ts` (the seven timing thresholds). -/
structure GestureSettings where
  multiPressWindow : Nat
  debounceDelay : Nat
  longPressMin : Nat
  longPressMax : Nat
  superLongMin : Nat
  superLongMax : Nat
  cancelThreshold : Nat
deriving Repr, DecidableEq

/-- The count component of a gesture name (`single` … `quadruple`). -/
inductive GestureBase
  | single
  | double
  | triple
  | quadruple
deriving Repr, DecidableEq

/-- A gesture type: count component plus press-type suffix (`""`, `_long`,
`_super_long`), i.e. the 12 strings of `GESTURE_TYPES` in `types.ts`. -/
structure Gesture where
  base : GestureBase
  pressType : PressType
deriving Repr, DecidableEq

/-- `MAX_PRESS_COUNT` in `gestureDetector.ts`. -/
def MAX_PRESS_COUNT : Nat := 4

/-- `TRIPLE_JAIL_DURATION` in `gestureDetector.ts`. -/
def TRIPLE_JAIL_DURATION : Nat := 120

/-- `QUADRUPLE_JAIL_DURATION` in `gestureDetector.ts`. -/
def QUADRUPLE_JAIL_DURATION : Nat := 200

/-- The instance fields of `KeyGestureStateMachine`. -/
structure MachineState where
  pressHistory : List PressRecord := []
  keyDownTime : Option Nat := none
  pressLimitReached : Bool := false
  windowDeadline : Option Nat := none
  waitingForRelease : Bool := false
  keyDownWasWithinWindow : Bool := false
  awaitJailUntil : Nat := 0
deriving Repr, DecidableEq

namespace KeyGestureStateMachine

/-- `initialWindow` getter: `settings.multiPressWindow`. -/
def initialWindow (st : GestureSettings) : Nat :=
  st.multiPressWindow

/-- `extensionWindow` getter: `Math.round(settings.multiPressWindow * 0.8)`,
computed exactly on naturals as `(8 * w + 5) / 10`. -/
def extensionWindow (st : GestureSettings) : Nat :=
  (8 * st.multiPressWindow + 5) / 10

/-- The press-type classification in `handleKeyUp`: `long` if the hold is in
the long range, else `super_long` if in the super-long range, else
`normal`. -/
def classifyPress (st : GestureSettings) (holdDuration : Nat) : PressType :=
  if st.longPressMin ≤ holdDuration ∧ holdDuration ≤ st.longPressMax then
    .long
  else if st.superLongMin ≤ holdDuration ∧ holdDuration ≤ st.superLongMax then
    .super_long
  else
    .normal

/-- The `lastPress = this.pressHistory[count - 1]` lookup in
`resolveGesture` (total, with a default that is never used since the
history is non-empty there). -/
def lastPress (l : List PressRecord) : PressRecord :=
  l.getLastD ⟨0, .normal⟩

/-- `mapGesture` helper inside `resolveGesture`: count 1/2/3 maps to
single/double/triple, anything else to quadruple. -/
def mapGesture (n : Nat) (t : PressType) : Gesture :=
  ⟨if n = 1 then .single else if n = 2 then .double
    else if n = 3 then .triple else .quadruple, t⟩

/-- `resolveGesture`: cap the press count at `MAX_PRESS_COUNT`, combine with
the last press's type, set the await jail after a triple or quadruple, then
emit (emission resets `pressHistory` and `pressLimitReached` before the
listener callback runs). -/
def resolveGesture (s : MachineState) (now : Nat) : MachineState × Option Gesture :=
  if s.pressHistory.length = 0 then (s, none)
  else
    let capped := min s.pressHistory.length MAX_PRESS_COUNT
    let gesture := mapGesture capped (lastPress s.pressHistory).pressType
    let s1 :=
      if gesture.base = .triple then
        { s with awaitJailUntil := now + TRIPLE_JAIL_DURATION }
      else if gesture.base = .quadruple then
        { s with awaitJailUntil := now + QUADRUPLE_JAIL_DURATION }
      else s
    ({ s1 with pressHistory := [], pressLimitReached := false }, some gesture)

/-- `handleKeyDown`: ignore while jailed, while the key is already down
(OS key-repeat), or after the press limit; otherwise open or extend the
elongating window and record the key-down time; a 4th key-down clears the
window and waits for its release. -/
def handleKeyDown (st : GestureSettings) (s : MachineState) (now : Nat) : MachineState :=
  if now < s.awaitJailUntil then s
  else if s.keyDownTime.isSome then s
  else if s.pressLimitReached then s
  else
    let withinWindow : Bool :=
      match s.windowDeadline with
      | some d => now ≤ d
      | none => false
    let s1 :=
      if withinWindow then
        { s with keyDownWasWithinWindow := true,
                 windowDeadline := some (now + extensionWindow st) }
      else
        let s0 :=
          if ¬ s.waitingForRelease then
            { s with pressHistory := [], pressLimitReached := false }
          else s
        { s0 with keyDownWasWithinWindow := false,
                  windowDeadline := some (now + initialWindow st) }
    let s2 := { s1 with keyDownTime := some now }
    if s2.pressHistory.length == 3 && (withinWindow || s2.waitingForRelease) then
      { s2 with windowDeadline := none, waitingForRelease := true }
    else s2

/-- `handleKeyUp`: compute the hold duration, discard on cancel threshold,
classify the press, append the press record (restarting the sequence when
the key-down fell outside the window), and resolve immediately on the 4th
press. -/
def handleKeyUp (st : GestureSettings) (s : MachineState) (now : Nat) :
    MachineState × Option Gesture :=
  match s.keyDownTime with
  | none => (s, none)
  | some t0 =>
    let holdDuration := now - t0
    let s1 := { s with keyDownTime := none }
    if s1.pressLimitReached then (s1, none)
    else if st.cancelThreshold ≤ holdDuration then
      ({ s1 with pressHistory := [], windowDeadline := none,
                 waitingForRelease := false }, none)
    else
      let pressType := classifyPress st holdDuration
      let counts : Bool :=
        (s1.pressHistory.length == 0) || s1.keyDownWasWithinWindow || s1.waitingForRelease
      let s2 :=
        if counts then s1
        else { s1 with pressHistory := [], pressLimitReached := false,
                       waitingForRelease := false }
      let s3 := { s2 with pressHistory := s2.pressHistory ++ [⟨now, pressType⟩] }
      if MAX_PRESS_COUNT ≤ s3.pressHistory.length then
        resolveGesture
          { s3 with pressLimitReached := true, waitingForRelease := false,
                    windowDeadline := none } now
      else (s3, none)

/-- `checkPendingGesture` (invoked by the orchestrator's periodic timer):
finalize the pending presses once the elongating window has expired. -/
def checkPendingGesture (s : MachineState) (now : Nat) : MachineState × Option Gesture :=
  if s.pressHistory.length = 0 then (s, none)
  else if s.keyDownTime.isSome then (s, none)
  else if s.waitingForRelease then (s, none)
  else
    match s.windowDeadline with
    | some d =>
      if d < now then resolveGesture { s with windowDeadline := none } now
      else (s, none)
    | none => (s, none)

/-- `reset`: restore every machine field to its initial value. -/
def reset : MachineState := {}

end KeyGestureStateMachine

/-! The profile data model (`types.ts`) and the two profile compilers:
`compileProfile` from `profileCompiler.ts` and the `compileProfilePatched`
variant. -/

/-- `SequenceStep` from `types.ts`.  Optional (possibly-`undefined`) fields
are `Option`s. -/
structure SequenceStep where
  key : String
  name : Option String := none
  bufferTier : Option String := none
  minDelay : Option Int := none
  maxDelay : Option Int := none
  keyDownDuration : Option (Int × Int) := none
  echoHits : Option Int := none
  dualKey : Option String := none
  dualKeyDownDuration : Option (Int × Int) := none
  dualKeyOffsetMs : Option Int := none
deriving Repr, DecidableEq

/-- `MacroBinding` from `types.ts` (the trigger is irrelevant to every
function embedded here and is omitted). -/
structure MacroBinding where
  name : String
  sequence : List SequenceStep
  enabled : Bool := true
deriving Repr, DecidableEq

/-- `MacroProfile` from `types.ts`, restricted to the `macros` list the
compilers and executor read. -/
structure MacroProfile where
  macros : List MacroBinding
deriving Repr, DecidableEq

/-- `rawKeyFrom` in `profileCompiler.ts`: split on `+`, trim, take the last
part, uppercase. -/
def rawKeyFrom (key : String) : String :=
  jsToUpper (((jsSplit '+' key).map jsTrim).getLastD "")

/-- JS `Set.prototype.add` on an insertion-ordered duplicate-free list. -/
def setAdd (l : List String) (x : String) : List String :=
  if l.contains x then l else l ++ [x]

/-- The `parts` array (`key.split("+").map(p => p.trim())`). -/
def keyParts (key : String) : List String :=
  (jsSplit '+' key).map jsTrim

/-- `hasShift`: some part before the last equals `"SHIFT"` uppercased. -/
def keyHasShift (key : String) : Bool :=
  ((keyParts key).dropLast).any fun p => jsToUpper p == "SHIFT"

/-- `hasAlt`: some part before the last equals `"ALT"` uppercased. -/
def keyHasAlt (key : String) : Bool :=
  ((keyParts key).dropLast).any fun p => jsToUpper p == "ALT"

/-- The three form sets accumulated by `compileProfile`. -/
structure FormSets3 where
  rawSet : List String := []
  shiftSet : List String := []
  altSet : List String := []
deriving Repr, DecidableEq

/-- One step of `compileProfile`'s collection loop: add the raw key to the
form set(s) selected by its modifiers. -/
def collectStep (acc : FormSets3) (key : String) : FormSets3 :=
  let last := rawKeyFrom key
  let hasShift := keyHasShift key
  let hasAlt := keyHasAlt key
  let acc1 :=
    if !hasShift && !hasAlt then { acc with rawSet := setAdd acc.rawSet last } else acc
  let acc2 :=
    if hasShift then { acc1 with shiftSet := setAdd acc1.shiftSet last } else acc1
  if hasAlt then { acc2 with altSet := setAdd acc2.altSet last } else acc2

/-- The step keys of a profile in iteration order (`for macro / for step`). -/
def stepKeysOf (p : MacroProfile) : List String :=
  (p.macros.map fun m => m.sequence.map fun st => st.key).flatten

/-- The classification loop body of `compileProfile`: a key present in more
than one of the three form sets is a conundrum; one present only bare is
safe. -/
def classifyKey3 (fs : FormSets3) (acc : CompiledProfile) (k : String) : CompiledProfile :=
  let forms := (if fs.rawSet.contains k then 1 else 0) +
    (if fs.shiftSet.contains k then 1 else 0) +
    (if fs.altSet.contains k then 1 else 0)
  if 1 < forms then { acc with conundrumKeys := setAdd acc.conundrumKeys k }
  else if forms = 1 ∧ fs.rawSet.contains k then
    { acc with safeKeys := setAdd acc.safeKeys k }
  else acc

/-- `compileProfile` from `profileCompiler.ts`. -/
def compileProfile (p : MacroProfile) : CompiledProfile :=
  let fs := (stepKeysOf p).foldl collectStep {}
  let allKeys := (fs.rawSet ++ fs.shiftSet ++ fs.altSet).foldl setAdd []
  allKeys.foldl (classifyKey3 fs) {}

/-- `isConundrumKey` from `profileCompiler.ts`. -/
def isConundrumKey (key : String) (compiled : CompiledProfile) : Bool :=
  compiled.conundrumKeys.contains (rawKeyFrom key)

/-- The four form sets accumulated by `compileProfilePatched`. -/
structure FormSets4 where
  rawSet : List String := []
  shiftSet : List String := []
  altSet : List String := []
  altShiftSet : List String := []
deriving Repr, DecidableEq

/-- One step of `compileProfilePatched`'s collection loop: steps without a
key (`!step.key`, modelled by the empty string) are skipped, and the four
form sets are mutually exclusive (`ALT+SHIFT` is its own form). -/
def collectStepPatched (acc : FormSets4) (key : String) : FormSets4 :=
  if key = "" then acc
  else
    let last := extractRawKey key
    let hasShift := keyHasShift key
    let hasAlt := keyHasAlt key
    let acc1 :=
      if !hasShift && !hasAlt then { acc with rawSet := setAdd acc.rawSet last } else acc
    let acc2 :=
      if hasShift && !hasAlt then { acc1 with shiftSet := setAdd acc1.shiftSet last } else acc1
    let acc3 :=
      if hasAlt && !hasShift then { acc2 with altSet := setAdd acc2.altSet last } else acc2
    if hasAlt && hasShift then { acc3 with altShiftSet := setAdd acc3.altShiftSet last } else acc3

/-- The classification loop body of `compileProfilePatched`: a key that
appears only as bare-plus-`ALT+SHIFT` (two forms, one of them `ALT+SHIFT`)
is exempted from conundrum status. -/
def classifyKey4 (fs : FormSets4) (acc : CompiledProfile) (k : String) : CompiledProfile :=
  let forms := (if fs.rawSet.contains k then 1 else 0) +
    (if fs.shiftSet.contains k then 1 else 0) +
    (if fs.altSet.contains k then 1 else 0) +
    (if fs.altShiftSet.contains k then 1 else 0)
  if (1 < forms ∧ ¬ (fs.altShiftSet.contains k ∧ forms = 2)) ∨ 2 < forms then
    { acc with conundrumKeys := setAdd acc.conundrumKeys k }
  else if forms = 1 ∧ fs.rawSet.contains k then
    { acc with safeKeys := setAdd acc.safeKeys k }
  else acc

/-- `compileProfilePatched` from the conundrum-logic patch file. -/
def compileProfilePatched (p : MacroProfile) : CompiledProfile :=
  let fs := (stepKeysOf p).foldl collectStepPatched {}
  let allKeys := (fs.rawSet ++ fs.shiftSet ++ fs.altSet ++ fs.altShiftSet).foldl setAdd []
  allKeys.foldl (classifyKey4 fs) {}

/-! The sequence executor (`sequenceExecutor.js`).  A run is modelled as a
pure function from the executor state, the binding, the execution-event
callback and the randomness oracle to the successor state and an observable
outcome.  Callbacks are modelled as `ExecutionEvent → Bool`: `false` means
the callback throws, and the `try`/`catch` of `executeInternal` is modelled
in the `Except` monad.  Sleeps have no observable effect and are not
recorded; `Date.now()` timestamps on events are omitted. -/

/-- `SEQUENCE_CONSTRAINTS` from `types.ts`. -/
structure SequenceConstraints where
  MIN_DELAY : Int
  MIN_VARIANCE : Int
  MAX_UNIQUE_KEYS : Nat
  MAX_STEPS_PER_KEY : Nat
  MAX_ECHO_HITS : Int
deriving Repr, DecidableEq

/-- The constraint values used by `sequenceExecutor.js`. -/
def SEQUENCE_CONSTRAINTS : SequenceConstraints :=
  ⟨25, 4, 4, 6, 6⟩

/-- `ExecutionEvent` from `sequenceExecutor.ts` (timestamp omitted). -/
structure ExecutionEvent where
  type : String
  bindingName : String
  step : Option SequenceStep := none
  stepIndex : Option Nat := none
  delay : Option Int := none
  error : Option String := none
deriving Repr, DecidableEq

/-- The observable OS and collaborator calls a run performs. -/
inductive OsAction
  | keyToggleDown (key : String) (modifiers : List String)
  | keyToggleUp (key : String) (modifiers : List String)
  | keyTap (key : String) (modifiers : List String)
  | discordVolume (level : String)
  | discordMicToggle
  | discordDeafenToggle
  | timerStart (id : String) (seconds : Nat) (message : String)
deriving Repr, DecidableEq

/-- Result of `parseKey`. -/
structure ParsedKey where
  key : String
  modifiers : List String
deriving Repr, DecidableEq

/-- JS `<` against a possibly-`undefined` number: any comparison involving
`undefined` (i.e. `NaN`) is false. -/
def jsLtOpt (a : Option Int) (b : Int) : Bool :=
  match a with
  | some x => x < b
  | none => false

/-- JS subtraction on possibly-`undefined` numbers (`undefined` gives `NaN`,
modelled as `none`). -/
def jsSubOpt (a b : Option Int) : Option Int :=
  match a, b with
  | some x, some y => some (x - y)
  | _, _ => none

/-- JS truthiness of a possibly-`undefined` string (empty string is falsy). -/
def jsTruthyStr (o : Option String) : Bool :=
  match o with
  | some s => !(s == "")
  | none => false

/-- JS `step.name?.includes(pat)` (false when the name is `undefined`). -/
def jsOptIncludes (o : Option String) (pat : String) : Bool :=
  match o with
  | some s => strIncludes s pat
  | none => false

/-- `step.echoHits || 1`: `undefined` and `0` are falsy and give 1. -/
def jsEchoHits (step : SequenceStep) : Int :=
  match step.echoHits with
  | some e => if e = 0 then 1 else e
  | none => 1

/-- JS `Map.get(k) || false` over an association list. -/
def mapGet (m : List (String × Bool)) (k : String) : Bool :=
  match m.find? (fun p => p.1 == k) with
  | some p => p.2
  | none => false

/-- JS `Map.set(k, v)` over an association list (insertion order kept). -/
def mapSet (m : List (String × Bool)) (k : String) (v : Bool) : List (String × Bool) :=
  if m.any (fun p => p.1 == k) then m.map (fun p => if p.1 == k then (k, v) else p)
  else m ++ [(k, v)]

namespace SequenceExecutor

/-- `SequenceExecutor.getRandomDelay(min, max)`:
`Math.floor(Math.random() * (max - min + 1)) + min` with the draw explicit. -/
def getRandomDelay (r : ℚ) (min max : Int) : Int :=
  randomRange min max r

/-- `SequenceExecutor.parseKey`: split `"MOD+MOD+KEY"`, map the modifier
names, lowercase the base (with the `NUMPAD` replacement). -/
def parseKey (key : String) : ParsedKey :=
  let parts := (jsSplit '+' key).map jsTrim
  let modifiers := (parts.dropLast).map fun m =>
    let mu := jsToUpper m
    if mu == "SHIFT" then "shift"
    else if mu == "ALT" then "alt"
    else if mu == "CTRL" || mu == "CONTROL" then "control"
    else jsToLower mu
  let base0 := jsToUpper (parts.getLastD "")
  let base :=
    if strStartsWith base0 "NUMPAD" then
      jsToLower ("numpad" ++ (⟨base0.data.drop 6⟩ : String))
    else jsToLower base0
  ⟨base, modifiers⟩

/-- `SequenceExecutor.bufferRanges` (a lookup that is `undefined` off the
three tiers). -/
def bufferRanges (tier : String) : Option (Int × Int) :=
  if tier == "low" then some (11, 17)
  else if tier == "medium" then some (15, 24)
  else if tier == "high" then some (980, 1270)
  else none

/-- `SequenceExecutor.validateStep`: tier steps need a known tier; legacy
steps need `minDelay ≥ 25` and variance `≥ 4` (with JS `undefined`/`NaN`
comparison semantics); a present `keyDownDuration` needs `0 < min ≤ max`. -/
def validateStep (step : SequenceStep) (stepIndex : Nat) : Option String :=
  let bufferErr :=
    if jsTruthyStr step.bufferTier then
      if !(["low", "medium", "high"].contains (step.bufferTier.getD "")) then
        some "bufferTier must be one of low|medium|high"
      else none
    else
      if jsLtOpt step.minDelay SEQUENCE_CONSTRAINTS.MIN_DELAY then
        some "minDelay must be >= 25ms"
      else if jsLtOpt (jsSubOpt step.maxDelay step.minDelay) SEQUENCE_CONSTRAINTS.MIN_VARIANCE then
        some "variance (max - min) must be >= 4ms"
      else none
  match bufferErr with
  | some e => some e
  | none =>
    match step.keyDownDuration with
    | some (kmin, kmax) =>
      if kmin ≤ 0 || kmax < kmin then
        some "keyDownDuration must be [min,max] with min>0 and max>=min"
      else none
    | none => none

/-- `step.key.toLowerCase()`, the key under which `validateSequence` counts
a step. -/
def stepKeyLower (st : SequenceStep) : String :=
  jsToLower st.key

/-- The per-step loop of `validateSequence` (step validity plus the echo-hit
bound). -/
def validateStepsLoop : List SequenceStep → Nat → Option String
  | [], _ => none
  | st :: rest, i =>
    match validateStep st i with
    | some e => some e
    | none =>
      let echoHits := jsEchoHits st
      if echoHits < 1 || SEQUENCE_CONSTRAINTS.MAX_ECHO_HITS < echoHits then
        some "echoHits must be 1-6"
      else validateStepsLoop rest (i + 1)

/-- The key set of the `keyStepCount` map: distinct lowercased step keys in
first-occurrence order. -/
def jsMapKeysOf (sequence : List SequenceStep) : List String :=
  (sequence.map stepKeyLower).foldl setAdd []

/-- The count the `keyStepCount` map holds for a lowercased key. -/
def keyStepCount (sequence : List SequenceStep) (k : String) : Nat :=
  (sequence.map stepKeyLower).count k

/-- `SequenceExecutor.validateSequence`: every step individually valid, at
most 4 distinct lowercased step-key strings, at most 6 steps per lowercased
step-key string. -/
def validateSequence (sequence : List SequenceStep) : Option String :=
  match validateStepsLoop sequence 0 with
  | some e => some e
  | none =>
    let keys := jsMapKeysOf sequence
    if SEQUENCE_CONSTRAINTS.MAX_UNIQUE_KEYS < keys.length then
      some "too many unique keys"
    else
      match keys.find? (fun k =>
          SEQUENCE_CONSTRAINTS.MAX_STEPS_PER_KEY < keyStepCount sequence k) with
      | some _ => some "too many steps per key"
      | none => none

/-- Modelled from the spec for comparison with `validateSequence` (C2): the
number of steps of a sequence referring to a given base key, where the base
of a step is the raw projection of its qualified key (modifiers
discarded). -/
def stepsPerBaseKey (sequence : List SequenceStep) (base : String) : Nat :=
  (sequence.filter fun st => extractRawKey st.key == base).length

/-- Modelled from the spec for comparison with `validateSequence` (C2): the
distinct base keys of a sequence. -/
def distinctBaseKeys (sequence : List SequenceStep) : List String :=
  (sequence.map fun st => extractRawKey st.key).foldl setAdd []

/-- The digit run / whitespace / `second` matcher of the timer regex
`(\d+)\s*seconds?` at one start position. -/
def matchTimerAt (cs : List Char) : Option Nat :=
  let ds := cs.takeWhile Char.isDigit
  if ds.isEmpty then none
  else
    let rest := (cs.drop ds.length).dropWhile isJsWhitespace
    if startsWithList "second".data rest then
      some (ds.foldl (fun acc c => acc * 10 + (c.toNat - 48)) 0)
    else none

/-- Leftmost match of the timer-duration regex over the step name. -/
def findTimerDuration : List Char → Option Nat
  | [] => none
  | c :: rest =>
    match matchTimerAt (c :: rest) with
    | some n => some n
    | none => findTimerDuration rest

/-- Leftmost match of the quoted-message regex: first apostrophe, lazily up
to the next apostrophe. -/
def findQuoted : List Char → Option String
  | [] => none
  | c :: rest =>
    if c = '\'' then
      let msg := rest.takeWhile fun d => !(d = '\'')
      if msg.length < rest.length then some ⟨msg⟩ else none
    else findQuoted rest

def squashWsAux : List Char → Bool → List Char
  | [], _ => []
  | c :: rest, prevWs =>
    if isJsWhitespace c then
      if prevWs then squashWsAux rest true else '_' :: squashWsAux rest true
    else c :: squashWsAux rest false

/-- The timer id: `message.toLowerCase().replace(/\s+/g, "_")`. -/
def timerIdOf (message : String) : String :=
  ⟨squashWsAux (jsToLower message).data false⟩

/-- `ExecutorState`: the per-binding execution flags and the set of active
executions (plus the optional compiled profile enabling traffic control). -/
structure ExecutorState where
  isExecuting : List (String × Bool) := []
  activeExecutions : List String := []
  compiledProfile : Option CompiledProfile := none
deriving Repr, DecidableEq

/-- The mutable context threaded through one run: the events emitted so far,
the OS actions performed, the traffic-controller state and the position in
the randomness stream. -/
structure RunAcc where
  events : List ExecutionEvent := []
  acts : List OsAction := []
  tc : TCState := {}
  randIdx : Nat := 0
deriving Repr, DecidableEq

/-- Observable outcome of one `executeInternal` call: the events the
callback received, the OS actions performed, and the returned value
(`none` when an exception escaped the call). -/
structure ExecOutcome where
  events : List ExecutionEvent := []
  acts : List OsAction := []
  result : Option Bool := none
deriving Repr, DecidableEq

/-- Invoke the execution-event callback inside the `try` region: the event
is delivered, and a throwing callback (`false`) aborts into the `catch`. -/
def invokeCb (cb : ExecutionEvent → Bool) (acc : RunAcc) (ev : ExecutionEvent) :
    Except RunAcc RunAcc :=
  let acc1 := { acc with events := acc.events ++ [ev] }
  if cb ev then .ok acc1 else .error acc1

/-- One `getRandomDelay` draw, consuming one position of the randomness
stream. -/
def drawRand (rand : Nat → ℚ) (acc : RunAcc) (min max : Int) : Int × RunAcc :=
  (getRandomDelay (rand acc.randIdx) min max, { acc with randIdx := acc.randIdx + 1 })

/-- A complete `requestCrossing` call as it executes inside a single-flow
run: the raw key is enqueued and, nobody else holding any token or queue
position, the wait loop exits at its first check and the token is acquired
(the enqueue timestamp is irrelevant and fixed to 0). -/
def requestCrossingRun (cp : CompiledProfile) (tc : TCState) (key : String) : TCState :=
  let raw := extractRawKey key
  if cp.conundrumKeys.contains raw then
    { tc with queue := tc.queue ++ [(raw, 0)], crossingKey := some raw }
  else tc

/-- The buffer-delay draw after a non-final key press: tier steps use the
tier's range (an unknown tier faults like the JS property access does),
legacy steps use `minDelay`/`maxDelay` (a missing bound gives a `NaN`
delay, modelled as `none`). -/
def bufferDraw (rand : Nat → ℚ) (acc : RunAcc) (step : SequenceStep) :
    Except RunAcc (Option Int × RunAcc) :=
  if jsTruthyStr step.bufferTier then
    match bufferRanges (step.bufferTier.getD "") with
    | some (lo, hi) =>
      let (d, acc1) := drawRand rand acc lo hi
      .ok (some d, acc1)
    | none => .error acc
  else
    match step.minDelay, step.maxDelay with
    | some lo, some hi =>
      let (d, acc1) := drawRand rand acc lo hi
      .ok (some d, acc1)
    | _, _ => .ok (none, { acc with randIdx := acc.randIdx + 1 })

/-- The tail of one echo hit after the Discord/timer routing: traffic
crossing, the key-down-duration draws, the primary (and dual) toggles, the
step event, the crossing release, and the buffer delay with its step
event. -/
def hitPress (cb : ExecutionEvent → Bool) (name : String) (cp : Option CompiledProfile)
    (rand : Nat → ℚ) (step : SequenceStep) (i : Nat) (isLast : Bool)
    (acc0 : RunAcc) : Except RunAcc RunAcc := do
  let parsed := parseKey step.key
  let needsTraffic :=
    match cp with
    | some c => isConundrumKey step.key c
    | none => false
  let acc1 :=
    if needsTraffic then
      { acc0 with tc := requestCrossingRun (cp.getD {}) acc0.tc step.key }
    else acc0
  let kd := step.keyDownDuration.getD (15, 27)
  let (_, acc2) := drawRand rand acc1 kd.1 kd.2
  let hasDual := step.dualKey.isSome
  let dualParsed := parseKey (step.dualKey.getD "")
  let dualKd := step.dualKeyDownDuration.getD kd
  let acc3 :=
    if hasDual then (drawRand rand acc2 dualKd.1 dualKd.2).2
    else acc2
  let acc4 := { acc3 with acts := acc3.acts ++ [.keyToggleDown parsed.key parsed.modifiers] }
  let stepEv : ExecutionEvent :=
    { type := "step", bindingName := name, step := some step, stepIndex := some i }
  let acc5 ← invokeCb cb acc4 stepEv
  let acc6 :=
    if hasDual then
      { acc5 with acts := acc5.acts ++
          [.keyToggleDown dualParsed.key dualParsed.modifiers,
           .keyToggleUp parsed.key parsed.modifiers,
           .keyToggleUp dualParsed.key dualParsed.modifiers] }
    else
      { acc5 with acts := acc5.acts ++ [.keyToggleUp parsed.key parsed.modifiers] }
  let acc7 :=
    if needsTraffic then
      { acc6 with tc := TrafficController.releaseCrossing acc6.tc step.key }
    else acc6
  if !isLast then do
    let (delay, acc8) ← bufferDraw rand acc7 step
    invokeCb cb acc8 { stepEv with delay := delay }
  else
    .ok acc7

/-- One echo hit: the Discord volume/mic/deafen routing, the TTS-timer
routing, then the key press (`hitPress`).  `continue` paths skip the
press. -/
def hitBody (cb : ExecutionEvent → Bool) (name : String) (cp : Option CompiledProfile)
    (rand : Nat → ℚ) (step : SequenceStep) (i : Nat) (isLast : Bool)
    (acc0 : RunAcc) : Except RunAcc RunAcc := do
  let parsed := parseKey step.key
  let stepEv : ExecutionEvent :=
    { type := "step", bindingName := name, step := some step, stepIndex := some i }
  let discordStep := parsed.key == "end" && jsOptIncludes step.name "Discord"
  let volLow := discordStep && jsOptIncludes step.name "Volume: Low"
  let volMed := discordStep && !volLow && jsOptIncludes step.name "Volume: Medium"
  let volHigh := discordStep && !volLow && !volMed && jsOptIncludes step.name "Volume: High"
  let mic := discordStep && !volLow && !volMed && !volHigh &&
    jsOptIncludes step.name "Mic Toggle"
  let deafen := discordStep && !volLow && !volMed && !volHigh && !mic &&
    jsOptIncludes step.name "Deafen"
  let skipKeyPress := volLow || volMed || volHigh
  let handled := skipKeyPress || mic || deafen
  let acc1 := { acc0 with acts := acc0.acts ++
      (if volLow then [.discordVolume "low"]
       else if volMed then [.discordVolume "medium"]
       else if volHigh then [.discordVolume "high"]
       else if mic then [.discordMicToggle]
       else if deafen then [.discordDeafenToggle]
       else []) }
  if handled && skipKeyPress then
    invokeCb cb acc1 stepEv
  else do
    let acc2 ← if handled then invokeCb cb acc1 stepEv else .ok acc1
    if parsed.key == "end" && jsOptIncludes step.name "Timer placeholder" then
      match findTimerDuration (step.name.getD "").data,
          findQuoted (step.name.getD "").data with
      | some dur, some msg => do
        let acc3 := { acc2 with acts := acc2.acts ++
            [.timerStart (timerIdOf msg) dur msg] }
        invokeCb cb acc3 stepEv
      | _, _ => hitPress cb name cp rand step i isLast acc2
    else
      hitPress cb name cp rand step i isLast acc2

/-- The echo-hit loop of one step, with the cooperative-cancellation check
before each hit (`executing` is the per-binding flag, which a pure
single-flow run cannot observe changing). -/
def runHits (cb : ExecutionEvent → Bool) (name : String) (cp : Option CompiledProfile)
    (rand : Nat → ℚ) (executing : Bool) (step : SequenceStep) (i : Nat)
    (lastStep : Bool) : Nat → RunAcc → Except RunAcc (RunAcc × Bool)
  | 0, acc => .ok (acc, true)
  | hitsLeft + 1, acc =>
    if !executing then .ok (acc, false)
    else do
      let acc1 ← hitBody cb name cp rand step i (lastStep && hitsLeft == 0) acc
      runHits cb name cp rand executing step i lastStep hitsLeft acc1

/-- The step loop of `executeInternal`'s `try` region, with the
cancellation check before each step. -/
def runSteps (cb : ExecutionEvent → Bool) (name : String) (cp : Option CompiledProfile)
    (rand : Nat → ℚ) (executing : Bool) :
    List SequenceStep → Nat → RunAcc → Except RunAcc (RunAcc × Bool)
  | [], _, acc => .ok (acc, true)
  | step :: rest, i, acc =>
    if !executing then .ok (acc, false)
    else do
      let echo := (jsEchoHits step).toNat
      let (acc1, ok) ← runHits cb name cp rand executing step i rest.isEmpty echo acc
      if ok then runSteps cb name cp rand executing rest (i + 1) acc1
      else .ok (acc1, false)

/-- `SequenceExecutor.executeInternal`: the per-binding overlap guard, the
validation gate (error event, no side effects), then mark-executing,
`started` event, the `try` region (steps then `completed`), the `catch`
(error event) and the `finally` (clear the executing flag).  A callback
throw outside the `try` (on the validation-error or `started` events)
escapes the call: the outcome's `result` is `none` there. -/
def executeInternal (cb : ExecutionEvent → Bool) (st : ExecutorState)
    (b : MacroBinding) (rand : Nat → ℚ) : ExecutorState × ExecOutcome :=
  if mapGet st.isExecuting b.name then
    (st, { result := some false })
  else
    match validateSequence b.sequence with
    | some err =>
      let ev : ExecutionEvent := { type := "error", bindingName := b.name, error := some err }
      (st, { events := [ev], result := if cb ev then some false else none })
    | none =>
      let st1 : ExecutorState :=
        { st with isExecuting := mapSet st.isExecuting b.name true,
                  activeExecutions := setAdd st.activeExecutions b.name }
      let startedEv : ExecutionEvent := { type := "started", bindingName := b.name }
      if !(cb startedEv) then
        (st1, { events := [startedEv], result := none })
      else
        let executing := mapGet st1.isExecuting b.name
        let finalSt : ExecutorState :=
          { st1 with isExecuting := mapSet st1.isExecuting b.name false,
                     activeExecutions := st1.activeExecutions.erase b.name }
        let tryResult :=
          (runSteps cb b.name st.compiledProfile rand executing b.sequence 0 {}) >>=
            fun p =>
              if p.2 then
                (invokeCb cb p.1 { type := "completed", bindingName := b.name }).map
                  fun a => (a, true)
              else .ok (p.1, false)
        match tryResult with
        | .ok (acc, ok) =>
          (finalSt, { events := [startedEv] ++ acc.events, acts := acc.acts,
                      result := some ok })
        | .error acc =>
          let errEv : ExecutionEvent :=
            { type := "error", bindingName := b.name, error := some "Unknown error" }
          (finalSt, { events := [startedEv] ++ acc.events ++ [errEv], acts := acc.acts,
                      result := if cb errEv then some false else none })

/-- `SequenceExecutor.execute`: the awaitable wrapper around
`executeInternal`. -/
def execute (cb : ExecutionEvent → Bool) (st : ExecutorState) (b : MacroBinding)
    (rand : Nat → ℚ) : ExecutorState × ExecOutcome :=
  executeInternal cb st b rand

/-- `SequenceExecutor.executeDetached`: skip (with a warning) when the
binding is already executing, else launch `executeInternal` detached. -/
def executeDetached (cb : ExecutionEvent → Bool) (st : ExecutorState) (b : MacroBinding)
    (rand : Nat → ℚ) : ExecutorState × ExecOutcome :=
  if mapGet st.isExecuting b.name then (st, {})
  else executeInternal cb st b rand

end SequenceExecutor

/-! The gesture orchestrator (`gestureDetector.ts`, `GestureDetector`).
Deferred emission through `queueMicrotask` is modelled by the
`pendingEmissions` queue, flushed by `flushEmissions`; the emit wrapper
installed by the constructor checks `isStopped` at flush time and invokes
the central callback and every additional listener each inside its own
`try`/`catch`.  Callbacks are `GestureEvent → Bool` (`false` = the callback
throws). -/

/-- `INPUT_KEYS` from `types.ts`. -/
def INPUT_KEYS : List String :=
  ["W", "A", "S", "D", "B", "I", "T", "C", "H", "Y", "U", "P", "1", "2", "3",
   "4", "5", "6", "LEFT_CLICK", "RIGHT_CLICK", "MIDDLE_CLICK", "SCROLL_UP"]

/-- `GestureEvent` from `types.ts` (timestamp and optional hold duration
omitted: `resolveGesture` emits without a hold duration). -/
structure GestureEvent where
  inputKey : String
  gesture : Gesture
deriving Repr, DecidableEq

/-- The instance fields of `GestureDetector`: the per-key machines, the
central callback, the additional listeners, the bounded ingest queue, the
stopped flag and the pending (queued-microtask) emissions. -/
structure DetectorState where
  machines : List (String × MachineState) := []
  settings : GestureSettings
  callback : GestureEvent → Bool
  listeners : List (GestureEvent → Bool) := []
  eventQueue : List (Bool × String) := []
  isStopped : Bool := false
  pendingEmissions : List GestureEvent := []

namespace GestureDetector

/-- The emit wrapper installed around every machine's `emitFn`: nothing is
delivered after `destroy`; otherwise the central callback runs inside its
own `try`/`catch` and then every additional listener runs inside its own
`try`/`catch`.  The result records, per invoked callback, whether it
returned normally; its very shape (one entry per subscriber, whatever the
entries) is the per-listener error isolation. -/
def notifyListeners (stopped : Bool) (central : GestureEvent → Bool)
    (listeners : List (GestureEvent → Bool)) (ev : GestureEvent) : List Bool :=
  if stopped then []
  else central ev :: (listeners.map fun l => l ev)

/-- Replace one machine's state in the machine map. -/
def updateMachine (ms : List (String × MachineState)) (k : String) (m : MachineState) :
    List (String × MachineState) :=
  ms.map fun p => if p.1 == k then (k, m) else p

/-- `processEvent`: uppercase the key, look up its machine (unknown keys are
ignored), drive the machine; a key-up may queue an emission. -/
def processEvent (s : DetectorState) (isDown : Bool) (key : String) (now : Nat) :
    DetectorState :=
  let upperKey := jsToUpper key
  match s.machines.find? (fun p => p.1 == upperKey) with
  | none => s
  | some p =>
    if isDown then
      let m1 := KeyGestureStateMachine.handleKeyDown s.settings p.2 now
      { s with machines := updateMachine s.machines p.1 m1 }
    else
      let r := KeyGestureStateMachine.handleKeyUp s.settings p.2 now
      let emitted := (r.2.map fun g => ({ inputKey := p.1, gesture := g } : GestureEvent)).toList
      { s with machines := updateMachine s.machines p.1 r.1,
               pendingEmissions := s.pendingEmissions ++ emitted }

/-- `queueEvent`: drop on queue overflow, drop everything after `destroy`,
otherwise process (the single-threaded loop drains the queue before
returning, so the queue is empty again at every entry). -/
def queueEvent (s : DetectorState) (isDown : Bool) (key : String) (now : Nat) :
    DetectorState :=
  if 100 ≤ s.eventQueue.length then s
  else if s.isStopped then s
  else processEvent s isDown key now

/-- `GestureDetector.handleKeyDown`. -/
def handleKeyDown (s : DetectorState) (key : String) (now : Nat) : DetectorState :=
  queueEvent s true key now

/-- `GestureDetector.handleKeyUp`. -/
def handleKeyUp (s : DetectorState) (key : String) (now : Nat) : DetectorState :=
  queueEvent s false key now

/-- `GestureDetector.handleMouseDown`: only `MIDDLE_CLICK` is ingested. -/
def handleMouseDown (s : DetectorState) (button : String) (now : Nat) : DetectorState :=
  if button == "MIDDLE_CLICK" then queueEvent s true button now else s

/-- `GestureDetector.handleMouseUp`: only `MIDDLE_CLICK` is ingested. -/
def handleMouseUp (s : DetectorState) (button : String) (now : Nat) : DetectorState :=
  if button == "MIDDLE_CLICK" then queueEvent s false button now else s

/-- The fold of `checkAllPendingGestures` over the machine map, collecting
finalized gestures. -/
def checkMachinesFold (settings : GestureSettings) (now : Nat) :
    List (String × MachineState) → List (String × MachineState) × List GestureEvent
  | [] => ([], [])
  | p :: rest =>
    let r := KeyGestureStateMachine.checkPendingGesture p.2 now
    let tail := checkMachinesFold settings now rest
    ((p.1, r.1) :: tail.1,
     (r.2.map fun g => ({ inputKey := p.1, gesture := g } : GestureEvent)).toList ++ tail.2)

/-- `checkAllPendingGestures` (the periodic 20 ms timer body): a no-op once
stopped, else finalize every machine whose window has expired. -/
def checkAllPendingGestures (s : DetectorState) (now : Nat) : DetectorState :=
  if s.isStopped then s
  else
    let r := checkMachinesFold s.settings now s.machines
    { s with machines := r.1, pendingEmissions := s.pendingEmissions ++ r.2 }

/-- Run the queued emission microtasks: each queued gesture goes through the
emit wrapper (which checks `isStopped` at this point); the pending queue is
consumed.  The second component is the flat record of subscriber
invocations. -/
def flushEmissions (s : DetectorState) : DetectorState × List Bool :=
  ({ s with pendingEmissions := [] },
   (s.pendingEmissions.map fun ev =>
     notifyListeners s.isStopped s.callback s.listeners ev).flatten)

/-- `GestureDetector.reset`: reset every machine. -/
def reset (s : DetectorState) : DetectorState :=
  { s with machines := s.machines.map fun p => (p.1, KeyGestureStateMachine.reset) }

/-- `GestureDetector.destroy`: set the stopped flag, stop the periodic
timer, reset every machine, clear the ingest queue, clear the listeners.
(The already-queued emission microtasks are not cancelled — their wrapper
sees `isStopped` when they run.) -/
def destroy (s : DetectorState) : DetectorState :=
  { s with isStopped := true,
           machines := s.machines.map fun p => (p.1, KeyGestureStateMachine.reset),
           eventQueue := [],
           listeners := [] }

end GestureDetector

/-! ## Theorems -/

theorem generateScan_mem (l : List (Nat × ℚ)) (roll : ℚ) :
    ∀ (cum : ℚ) (res : Nat),
      generateScan l roll cum res = res ∨ generateScan l roll cum res ∈ l.map Prod.fst := by
  induction l with
  | nil => intro cum res; left; rfl
  | cons hd tl ih =>
    intro cum res
    obtain ⟨v, w⟩ := hd
    by_cases h : roll ≤ cum + w
    · right
      simp [generateScan, h]
    · rcases ih (cum + w) res with h1 | h1
      · left
        simpa [generateScan, h] using h1
      · right
        simp only [generateScan, h, if_false, List.map_cons, List.mem_cons]
        exact Or.inr h1

theorem generate_mem_range (min max : Nat) (hmm : min ≤ max)
    (weightFn : Nat → ℚ) (roll : ℚ) :
    min ≤ generate min max weightFn roll ∧ generate min max weightFn roll ≤ max := by
  rw [show generate min max weightFn roll =
      generateScan ((List.range' min (max + 1 - min)).map fun v => (v, weightFn v))
        roll 0 min from rfl]
  rcases generateScan_mem ((List.range' min (max + 1 - min)).map fun v => (v, weightFn v))
      roll 0 min with h | h
  · rw [h]; exact ⟨le_refl _, hmm⟩
  · rw [List.map_map] at h
    have : (Prod.fst ∘ fun v => (v, weightFn v)) = id := by
      funext v; rfl
    rw [this, List.map_id] at h
    rw [List.mem_range'_1] at h
    refine ⟨h.1, ?_⟩
    omega

theorem randomRange_mem (min max : Int) (r : ℚ) (h0 : 0 ≤ r) (h1 : r < 1)
    (hmm : min ≤ max) :
    min ≤ randomRange min max r ∧ randomRange min max r ≤ max := by
  unfold randomRange
  have hL : (0 : ℚ) < (max : ℚ) - (min : ℚ) + 1 := by
    have : (min : ℚ) ≤ (max : ℚ) := by exact_mod_cast hmm
    linarith
  have hlow : (0 : Int) ≤ ⌊r * ((max : ℚ) - (min : ℚ) + 1)⌋ := by
    apply Int.floor_nonneg.mpr
    positivity
  have hup : ⌊r * ((max : ℚ) - (min : ℚ) + 1)⌋ < max - min + 1 := by
    apply Int.floor_lt.mpr
    push_cast
    nlinarith
  constructor
  · linarith
  · linarith

/-- C1: while any crossing token is held (for any conundrum key), a waiting
`requestCrossing` call cannot complete for any raw key; the controller's
`crossingKey` field holds at most one token in total; and `requestCrossing`
on a key whose raw projection is not a conundrum key returns immediately
with the controller state unchanged (nothing is queued). -/
theorem traffic_cross_key_serialization :
    (∀ (s : TCState) (k : String), s.crossingKey = some k →
      ∀ raw : String, TrafficController.requestCrossingFinish s raw = none) ∧
    (∀ s : TCState, TrafficController.heldTokens s ≤ 1) ∧
    (∀ (cp : CompiledProfile) (s : TCState) (key : String) (now : Nat),
      cp.conundrumKeys.contains (extractRawKey key) = false →
      TrafficController.requestCrossingStart cp s key now = (s, true)) := by
  refine ⟨?_, ?_, ?_⟩
  · intro s k hk raw
    unfold TrafficController.requestCrossingFinish TrafficController.shouldWait
    simp [hk]
  · intro s
    unfold TrafficController.heldTokens
    cases s.crossingKey <;> simp
  · intro cp s key now h
    unfold TrafficController.requestCrossingStart
    simp only [h]
    simp

theorem traffic_cross_key_serialization_witness :
    TrafficController.requestCrossingFinish ⟨some "R", [("R", 0)]⟩ "Z" = none ∧
    TrafficController.heldTokens ⟨some "R", [("R", 0)]⟩ ≤ 1 ∧
    TrafficController.requestCrossingStart ⟨["R"], []⟩ ⟨none, []⟩ "J" 5 =
      (⟨none, []⟩, true) :=
  ⟨traffic_cross_key_serialization.1 ⟨some "R", [("R", 0)]⟩ "R" rfl "Z",
   traffic_cross_key_serialization.2.1 ⟨some "R", [("R", 0)]⟩,
   traffic_cross_key_serialization.2.2 ⟨["R"], []⟩ ⟨none, []⟩ "J" 5 (by decide)⟩

/-- C4 counterexample: in `src/trafficController.ts` (and its `dist` build)
the wait-loop sleep is `randomRange(29, 36)`; at the random draw `r = 7/8` it
sleeps 36 ms, which is not in the traffic-wait range `[10, 30]`. -/
theorem traffic_wait_draw_counterexample :
    TrafficController.requestCrossingWaitDraw (7/8) = 36 ∧
    ¬ (10 ≤ TrafficController.requestCrossingWaitDraw (7/8) ∧
       TrafficController.requestCrossingWaitDraw (7/8) ≤ 30) := by
  have h : TrafficController.requestCrossingWaitDraw (7/8) = 36 := by
    unfold TrafficController.requestCrossingWaitDraw randomRange
    norm_num
  refine ⟨h, ?_⟩
  rw [h]
  omega

/-- C4 amended: the sleeps of a waiting `requestCrossing` are integers in the
range of whichever draw that controller variant uses: `[29, 36]` for the
`randomRange(29, 36)` draw of `src/trafficController.ts`, and `[10, 30]` for
the `getHumanTrafficWait()` draw of the `humanRandomizer`-based variant
(which is the spec's traffic-wait range). -/
theorem traffic_wait_draw_ranges (r : ℚ) (h0 : 0 ≤ r) (h1 : r < 1)
    (weightFn : Nat → ℚ) (roll : ℚ) :
    (29 ≤ TrafficController.requestCrossingWaitDraw r ∧
     TrafficController.requestCrossingWaitDraw r ≤ 36) ∧
    (10 ≤ getHumanTrafficWait weightFn roll ∧
     getHumanTrafficWait weightFn roll ≤ 30) := by
  constructor
  · exact randomRange_mem 29 36 r h0 h1 (by omega)
  · exact generate_mem_range 10 30 (by omega) weightFn roll

/-- C3: for a release with hold duration below the cancel threshold, under
the settings invariant `longPressMax < superLongMin ≤ superLongMax <
cancelThreshold`, the recorded press type is `long` iff the hold is in the
long range, `super_long` iff it is in the super-long range, and `normal`
otherwise; and the resolved gesture is exactly the capped press count
`min(count, 4)` combined with the last recorded press's type. -/
theorem press_classification (st : GestureSettings)
    (hinv : st.longPressMax < st.superLongMin ∧ st.superLongMin ≤ st.superLongMax ∧
      st.superLongMax < st.cancelThreshold)
    (holdDuration : Nat) (hcancel : holdDuration < st.cancelThreshold) :
    (KeyGestureStateMachine.classifyPress st holdDuration = .long ↔
      st.longPressMin ≤ holdDuration ∧ holdDuration ≤ st.longPressMax) ∧
    (KeyGestureStateMachine.classifyPress st holdDuration = .super_long ↔
      st.superLongMin ≤ holdDuration ∧ holdDuration ≤ st.superLongMax) ∧
    (KeyGestureStateMachine.classifyPress st holdDuration = .normal ↔
      ¬ (st.longPressMin ≤ holdDuration ∧ holdDuration ≤ st.longPressMax) ∧
      ¬ (st.superLongMin ≤ holdDuration ∧ holdDuration ≤ st.superLongMax)) ∧
    (∀ (s : MachineState) (now : Nat), s.pressHistory ≠ [] →
      (KeyGestureStateMachine.resolveGesture s now).2 =
        some (KeyGestureStateMachine.mapGesture (min s.pressHistory.length 4)
          (KeyGestureStateMachine.lastPress s.pressHistory).pressType)) := by
  obtain ⟨h1, h2, h3⟩ := hinv
  refine ⟨?_, ?_, ?_, ?_⟩
  · unfold KeyGestureStateMachine.classifyPress
    split_ifs with hL hS <;> simp_all <;> omega
  · unfold KeyGestureStateMachine.classifyPress
    split_ifs with hL hS <;> simp_all <;> omega
  · unfold KeyGestureStateMachine.classifyPress
    split_ifs with hL hS <;> simp_all <;> omega
  · intro s now hne
    have hlen : ¬ s.pressHistory.length = 0 := by
      simpa [List.length_eq_zero] using hne
    simp [KeyGestureStateMachine.resolveGesture, hlen, MAX_PRESS_COUNT]

theorem press_classification_witness :
    ((⟨355, 40, 80, 145, 200, 300, 450⟩ : GestureSettings).longPressMax <
        (⟨355, 40, 80, 145, 200, 300, 450⟩ : GestureSettings).superLongMin ∧
      (⟨355, 40, 80, 145, 200, 300, 450⟩ : GestureSettings).superLongMin ≤
        (⟨355, 40, 80, 145, 200, 300, 450⟩ : GestureSettings).superLongMax ∧
      (⟨355, 40, 80, 145, 200, 300, 450⟩ : GestureSettings).superLongMax <
        (⟨355, 40, 80, 145, 200, 300, 450⟩ : GestureSettings).cancelThreshold) ∧
    (130 < (⟨355, 40, 80, 145, 200, 300, 450⟩ : GestureSettings).cancelThreshold) ∧
    (KeyGestureStateMachine.classifyPress ⟨355, 40, 80, 145, 200, 300, 450⟩ 130 = .long ↔
      (80 ≤ 130 ∧ 130 ≤ 145)) :=
  ⟨by decide, by decide,
    (press_classification ⟨355, 40, 80, 145, 200, 300, 450⟩ (by decide) 130 (by decide)).1⟩

/-- C5: when `resolveGesture` emits a triple the await jail is set to 120 ms
after the resolution time, after a quadruple to 200 ms; singles and doubles
leave the jail untouched; and any key-down arriving before the jail expires
is ignored with no state change (and no emission, since `handleKeyDown`
never emits). -/
theorem await_jail (s : MachineState) (now : Nat) (g : Gesture)
    (hres : (KeyGestureStateMachine.resolveGesture s now).2 = some g) :
    (g.base = .triple →
      (KeyGestureStateMachine.resolveGesture s now).1.awaitJailUntil = now + 120) ∧
    (g.base = .quadruple →
      (KeyGestureStateMachine.resolveGesture s now).1.awaitJailUntil = now + 200) ∧
    (g.base = .single ∨ g.base = .double →
      (KeyGestureStateMachine.resolveGesture s now).1.awaitJailUntil = s.awaitJailUntil) ∧
    (∀ (st : GestureSettings) (s0 : MachineState) (t : Nat),
      t < s0.awaitJailUntil → KeyGestureStateMachine.handleKeyDown st s0 t = s0) := by
  by_cases hlen : s.pressHistory.length = 0
  · simp [KeyGestureStateMachine.resolveGesture, hlen] at hres
  · have hg : g = KeyGestureStateMachine.mapGesture
        (min s.pressHistory.length MAX_PRESS_COUNT)
        (KeyGestureStateMachine.lastPress s.pressHistory).pressType := by
      simp [KeyGestureStateMachine.resolveGesture, hlen] at hres
      exact hres.symm
    refine ⟨?_, ?_, ?_, ?_⟩
    · intro hb
      rw [hg] at hb
      simp [KeyGestureStateMachine.resolveGesture, hlen, hb, TRIPLE_JAIL_DURATION]
    · intro hb
      rw [hg] at hb
      have hnt : ¬ (KeyGestureStateMachine.mapGesture
          (min s.pressHistory.length MAX_PRESS_COUNT)
          (KeyGestureStateMachine.lastPress s.pressHistory).pressType).base = .triple := by
        rw [hb]; simp
      simp [KeyGestureStateMachine.resolveGesture, hlen, hb, hnt, QUADRUPLE_JAIL_DURATION]
    · intro hb
      have hnt : ¬ (KeyGestureStateMachine.mapGesture
          (min s.pressHistory.length MAX_PRESS_COUNT)
          (KeyGestureStateMachine.lastPress s.pressHistory).pressType).base = .triple := by
        rw [← hg]; rcases hb with hb | hb <;> rw [hb] <;> simp
      have hnq : ¬ (KeyGestureStateMachine.mapGesture
          (min s.pressHistory.length MAX_PRESS_COUNT)
          (KeyGestureStateMachine.lastPress s.pressHistory).pressType).base = .quadruple := by
        rw [← hg]; rcases hb with hb | hb <;> rw [hb] <;> simp
      simp [KeyGestureStateMachine.resolveGesture, hlen, hnt, hnq]
    · intro st s0 t ht
      simp [KeyGestureStateMachine.handleKeyDown, ht]

theorem await_jail_witness :
    (KeyGestureStateMachine.resolveGesture
        { pressHistory := [⟨0, .normal⟩, ⟨30, .normal⟩, ⟨60, .normal⟩] } 100).2 =
      some ⟨.triple, .normal⟩ ∧
    ((⟨.triple, .normal⟩ : Gesture).base = .triple →
      (KeyGestureStateMachine.resolveGesture
        { pressHistory := [⟨0, .normal⟩, ⟨30, .normal⟩, ⟨60, .normal⟩] } 100).1.awaitJailUntil =
        100 + 120) :=
  ⟨by decide,
    (await_jail { pressHistory := [⟨0, .normal⟩, ⟨30, .normal⟩, ⟨60, .normal⟩] } 100
      ⟨.triple, .normal⟩ (by decide)).1⟩

theorem traffic_wait_draw_ranges_witness :
    (0 : ℚ) ≤ 1/2 ∧ (1/2 : ℚ) < 1 ∧
    (29 ≤ TrafficController.requestCrossingWaitDraw (1/2) ∧
     TrafficController.requestCrossingWaitDraw (1/2) ≤ 36) ∧
    (10 ≤ getHumanTrafficWait (fun _ => 1) 0 ∧
     getHumanTrafficWait (fun _ => 1) 0 ≤ 30) :=
  ⟨by norm_num, by norm_num,
   (traffic_wait_draw_ranges (1/2) (by norm_num) (by norm_num) (fun _ => 1) 0).1,
   (traffic_wait_draw_ranges (1/2) (by norm_num) (by norm_num) (fun _ => 1) 0).2⟩


/-- The two raw-key extractors are the same function. -/
theorem extractRawKey_eq_rawKeyFrom : extractRawKey = rawKeyFrom := rfl

theorem collectPatched_eq (keys : List String)
    (h : ∀ k ∈ keys, ¬ k = "" ∧ (keyHasShift k && keyHasAlt k) = false) :
    ∀ r s a : List String,
      keys.foldl collectStepPatched ⟨r, s, a, []⟩ =
        ⟨(keys.foldl collectStep ⟨r, s, a⟩).rawSet,
         (keys.foldl collectStep ⟨r, s, a⟩).shiftSet,
         (keys.foldl collectStep ⟨r, s, a⟩).altSet, []⟩ := by
  induction keys with
  | nil => intro r s a; rfl
  | cons k ks ih =>
    intro r s a
    obtain ⟨hne, hba⟩ := h k (by simp)
    have hrest : ∀ x ∈ ks, ¬ x = "" ∧ (keyHasShift x && keyHasAlt x) = false :=
      fun x hx => h x (by simp [hx])
    have hstep : collectStepPatched ⟨r, s, a, []⟩ k =
        ⟨(collectStep ⟨r, s, a⟩ k).rawSet, (collectStep ⟨r, s, a⟩ k).shiftSet,
         (collectStep ⟨r, s, a⟩ k).altSet, []⟩ := by
      unfold collectStepPatched collectStep
      rw [if_neg hne, extractRawKey_eq_rawKeyFrom]
      cases hS : keyHasShift k <;> cases hA : keyHasAlt k <;> simp_all
    simp only [List.foldl_cons]
    rw [hstep]
    exact ih hrest _ _ _

theorem classifyKey4_eq (r s a : List String) (acc : CompiledProfile) (k : String) :
    classifyKey4 ⟨r, s, a, []⟩ acc k = classifyKey3 ⟨r, s, a⟩ acc k := by
  unfold classifyKey4 classifyKey3
  simp only [List.contains_nil, Bool.false_eq_true, false_and, not_false_eq_true,
    and_true, if_false, add_zero]
  have hcond : ∀ f : Nat, (1 < f ∨ 2 < f) ↔ 1 < f := by
    intro f
    constructor
    · rintro (h | h)
      · exact h
      · omega
    · exact Or.inl
  rw [if_congr (hcond _) rfl rfl]

/-- C9: on every profile in which each step has a key and no step key
carries both `ALT` and `SHIFT` together, `compileProfile` and
`compileProfilePatched` produce the same `conundrumKeys` and the same
`safeKeys`. -/
theorem profile_compiler_equivalence (p : MacroProfile)
    (h : ∀ b ∈ p.macros, ∀ st ∈ b.sequence,
      ¬ st.key = "" ∧ (keyHasShift st.key && keyHasAlt st.key) = false) :
    (compileProfilePatched p).conundrumKeys = (compileProfile p).conundrumKeys ∧
    (compileProfilePatched p).safeKeys = (compileProfile p).safeKeys := by
  have hkeys : ∀ k ∈ stepKeysOf p, ¬ k = "" ∧ (keyHasShift k && keyHasAlt k) = false := by
    intro k hk
    unfold stepKeysOf at hk
    rw [List.mem_flatten] at hk
    obtain ⟨l, hl, hkl⟩ := hk
    rw [List.mem_map] at hl
    obtain ⟨b, hb, rfl⟩ := hl
    rw [List.mem_map] at hkl
    obtain ⟨st, hst, rfl⟩ := hkl
    exact h b hb st hst
  have hmain : compileProfilePatched p = compileProfile p := by
    simp only [compileProfilePatched, compileProfile]
    rw [collectPatched_eq (stepKeysOf p) hkeys [] [] []]
    dsimp only
    rw [List.append_nil]
    apply List.foldl_ext
    intro acc k _
    exact classifyKey4_eq _ _ _ acc k
  exact ⟨by rw [hmain], by rw [hmain]⟩

theorem profile_compiler_equivalence_witness :
    (∀ b ∈ ({ macros := [⟨"A", [{ key := "R" }, { key := "SHIFT+R" }], true⟩] } :
        MacroProfile).macros,
      ∀ st ∈ b.sequence, ¬ st.key = "" ∧ (keyHasShift st.key && keyHasAlt st.key) = false) ∧
    (compileProfilePatched
        { macros := [⟨"A", [{ key := "R" }, { key := "SHIFT+R" }], true⟩] }).conundrumKeys =
      (compileProfile
        { macros := [⟨"A", [{ key := "R" }, { key := "SHIFT+R" }], true⟩] }).conundrumKeys :=
  ⟨by decide,
    (profile_compiler_equivalence
      { macros := [⟨"A", [{ key := "R" }, { key := "SHIFT+R" }], true⟩] } (by decide)).1⟩


theorem getD_map_apply (l : List (GestureEvent → Bool)) (ev : GestureEvent) :
    ∀ i, i < l.length → (l.map fun f => f ev).getD i false = (l.getD i fun _ => false) ev := by
  induction l with
  | nil => intro i hi; exact absurd hi (by simp)
  | cons f fs ih =>
    intro i hi
    cases i with
    | zero => rfl
    | succ j =>
      rw [List.map_cons, List.getD_cons_succ]
      exact ih j (by simpa using hi)

theorem flatten_map_nil {α β : Type} (l : List α) :
    (l.map fun _ => ([] : List β)).flatten = [] := by
  induction l with
  | nil => rfl
  | cons a t ih => simpa using ih

/-- C2 amended: `validateSequence` accepts a sequence exactly when every
step passes the per-step checks and the sequence has at most 4 distinct
lowercased step-key strings with at most 6 steps per lowercased step-key
string — the executor counts full qualified key strings
case-insensitively, not base keys. -/
theorem validateSequence_accepts_iff (sequence : List SequenceStep) :
    SequenceExecutor.validateSequence sequence = none ↔
      (SequenceExecutor.validateStepsLoop sequence 0 = none ∧
       (SequenceExecutor.jsMapKeysOf sequence).length ≤ 4 ∧
       ∀ k ∈ SequenceExecutor.jsMapKeysOf sequence,
         SequenceExecutor.keyStepCount sequence k ≤ 6) := by
  unfold SequenceExecutor.validateSequence
  cases h : SequenceExecutor.validateStepsLoop sequence 0 with
  | some e => simp [h]
  | none =>
    simp only [h, true_and]
    cases hf : (SequenceExecutor.jsMapKeysOf sequence).find? (fun k =>
        SEQUENCE_CONSTRAINTS.MAX_STEPS_PER_KEY <
          SequenceExecutor.keyStepCount sequence k) with
    | some k =>
      have hk := List.mem_of_find?_eq_some hf
      have hp := List.find?_some hf
      simp only [decide_eq_true_eq, SEQUENCE_CONSTRAINTS] at hp
      simp only [hf]
      split_ifs with hlen
      · constructor
        · intro hok; cases hok
        · rintro ⟨-, hall⟩
          exact absurd (hall k hk) (by omega)
      · constructor
        · intro hok; cases hok
        · rintro ⟨-, hall⟩
          exact absurd (hall k hk) (by omega)
    | none =>
      have hall : ∀ k ∈ SequenceExecutor.jsMapKeysOf sequence,
          SequenceExecutor.keyStepCount sequence k ≤ 6 := by
        intro k hk
        have := List.find?_eq_none.mp hf k hk
        simp only [decide_eq_true_eq, SEQUENCE_CONSTRAINTS, not_lt] at this
        exact this
      simp only [hf]
      split_ifs with hlen
      · simp only [SEQUENCE_CONSTRAINTS] at hlen
        constructor
        · intro hok; cases hok
        · rintro ⟨h4, -⟩; omega
      · simp only [SEQUENCE_CONSTRAINTS, not_lt] at hlen
        constructor
        · intro _; exact ⟨hlen, hall⟩
        · intro _; rfl

/-- C2 counterexample: seven individually valid steps — four on `"R"` and
three on `"SHIFT+R"` — are accepted by `validateSequence` (only two
distinct lowercased key strings), although the base key `"R"` (raw
projection that discards the `SHIFT` modifier) is referred to by all seven
steps, exceeding the claimed six-steps-per-base bound. -/
theorem validateSequence_base_key_counterexample :
    (SequenceExecutor.validateSequence
        (List.replicate 4 ({ key := "R", bufferTier := some "low" } : SequenceStep) ++
         List.replicate 3 ({ key := "SHIFT+R", bufferTier := some "low" } : SequenceStep)),
     SequenceExecutor.stepsPerBaseKey
        (List.replicate 4 ({ key := "R", bufferTier := some "low" } : SequenceStep) ++
         List.replicate 3 ({ key := "SHIFT+R", bufferTier := some "low" } : SequenceStep))
        "R") = (none, 7) := by
  decide

/-- C6: when a binding's sequence fails validation (and the binding is not
already running, so the call reaches the validation gate), `executeInternal`
— hence both `execute` and `executeDetached` — emits exactly one execution
event, the `error` event, returns failure, performs no OS action, and
leaves the executor state (in particular the per-binding executing flag and
the active-executions set) unchanged. -/
theorem validation_failure_atomicity (cb : ExecutionEvent → Bool)
    (st : SequenceExecutor.ExecutorState) (b : MacroBinding) (rand : Nat → ℚ)
    (err : String)
    (hval : SequenceExecutor.validateSequence b.sequence = some err)
    (hnot : mapGet st.isExecuting b.name = false)
    (hcb : cb { type := "error", bindingName := b.name, error := some err } = true) :
    SequenceExecutor.executeInternal cb st b rand =
      (st, { events := [{ type := "error", bindingName := b.name, error := some err }],
             acts := [], result := some false }) ∧
    SequenceExecutor.executeDetached cb st b rand =
      SequenceExecutor.executeInternal cb st b rand ∧
    SequenceExecutor.execute cb st b rand =
      SequenceExecutor.executeInternal cb st b rand := by
  refine ⟨?_, ?_, rfl⟩
  · unfold SequenceExecutor.executeInternal
    rw [hnot]
    simp only [Bool.false_eq_true, if_false, hval, hcb, if_true]
  · unfold SequenceExecutor.executeDetached
    rw [hnot]
    simp

theorem validation_failure_atomicity_witness :
    SequenceExecutor.validateSequence
        [({ key := "R", bufferTier := some "low", echoHits := some 7 } : SequenceStep)] =
      some "echoHits must be 1-6" ∧
    mapGet (SequenceExecutor.ExecutorState.isExecuting {}) "bad" = false ∧
    SequenceExecutor.executeInternal (fun _ => true) {}
        ⟨"bad", [{ key := "R", bufferTier := some "low", echoHits := some 7 }], true⟩
        (fun _ => 0) =
      ({}, { events := [{ type := "error", bindingName := "bad",
                          error := some "echoHits must be 1-6" }],
             acts := [], result := some false }) :=
  ⟨by decide, by decide,
    (validation_failure_atomicity (fun _ => true) {}
      ⟨"bad", [{ key := "R", bufferTier := some "low", echoHits := some 7 }], true⟩
      (fun _ => 0) "echoHits must be 1-6" (by decide) (by decide) (by decide)).1⟩

/-- C7 amended: in the gesture detector the emission wrapper isolates
subscriber errors per listener — for every emission (before `destroy`) the
central callback and each additional listener are invoked exactly once
each, whichever of them throw, and flushing emissions does not change any
other detector state.  (In the sequence executor, by contrast, a throwing
execution-event callback aborts the run into its `catch` block: see the
counterexample.) -/
theorem listener_error_isolation (central : GestureEvent → Bool)
    (listeners : List (GestureEvent → Bool)) (ev : GestureEvent) (s : DetectorState) :
    (GestureDetector.notifyListeners false central listeners ev).length =
      listeners.length + 1 ∧
    (GestureDetector.notifyListeners false central listeners ev).getD 0 false =
      central ev ∧
    (∀ i, i < listeners.length →
      (GestureDetector.notifyListeners false central listeners ev).getD (i + 1) false =
        (listeners.getD i fun _ => false) ev) ∧
    (GestureDetector.flushEmissions s).1 = { s with pendingEmissions := [] } := by
  refine ⟨?_, rfl, ?_, rfl⟩
  · simp [GestureDetector.notifyListeners]
  · intro i hi
    show (List.map (fun l => l ev) listeners).getD i false = _
    exact getD_map_apply listeners ev i hi

theorem listener_error_isolation_witness :
    (0 < ([fun _ => false, fun _ => true] : List (GestureEvent → Bool)).length) ∧
    (GestureDetector.notifyListeners false (fun _ => false)
        [fun _ => false, fun _ => true] ⟨"W", ⟨.single, .normal⟩⟩).getD 1 false =
      (([fun _ => false, fun _ => true] : List (GestureEvent → Bool)).getD 0
        fun _ => false) ⟨"W", ⟨.single, .normal⟩⟩ :=
  ⟨by decide,
    (listener_error_isolation (fun _ => false) [fun _ => false, fun _ => true]
      ⟨"W", ⟨.single, .normal⟩⟩
      ⟨[], ⟨355, 40, 80, 145, 200, 300, 450⟩, fun _ => true, [], [], false, []⟩).2.2.1
      0 (by decide)⟩

/-- C7 counterexample: an execution-event callback that throws on `step`
events aborts the sequence executor's run: on a valid two-step binding the
run presses the first key down and then, when the `step` event callback
throws, jumps to the `catch` block — it emits an `error` event, returns
failure, and never reaches the second step or the `completed` event, so the
executor's progress is affected by the listener error. -/
theorem executor_callback_throw_counterexample :
    SequenceExecutor.validateSequence
        [({ key := "R", bufferTier := some "low" } : SequenceStep),
         ({ key := "J", bufferTier := some "low" } : SequenceStep)] = none ∧
    ((SequenceExecutor.executeInternal (fun ev => !(ev.type == "step")) {}
        ⟨"combo", [{ key := "R", bufferTier := some "low" },
                   { key := "J", bufferTier := some "low" }], true⟩
        (fun _ => 0)).2.events.map fun e => e.type) = ["started", "step", "error"] ∧
    (SequenceExecutor.executeInternal (fun ev => !(ev.type == "step")) {}
        ⟨"combo", [{ key := "R", bufferTier := some "low" },
                   { key := "J", bufferTier := some "low" }], true⟩
        (fun _ => 0)).2.acts = [OsAction.keyToggleDown "r" []] ∧
    (SequenceExecutor.executeInternal (fun ev => !(ev.type == "step")) {}
        ⟨"combo", [{ key := "R", bufferTier := some "low" },
                   { key := "J", bufferTier := some "low" }], true⟩
        (fun _ => 0)).2.result = some false := by
  refine ⟨by decide, ?_, ?_, ?_⟩ <;> decide

/-- C8: once the stopped flag is set every ingest call returns the state
unchanged, the periodic finalization pass is a no-op, and flushing the
emission queue (including emissions queued before the stop) delivers
nothing; `destroy` sets the flag, and destroying twice gives exactly the
state of destroying once (and emits nothing, since `destroy` produces no
emission at all). -/
theorem destroy_idempotent_final (s : DetectorState) :
    (∀ s0 : DetectorState, s0.isStopped = true →
      (∀ (d : Bool) (k : String) (now : Nat), GestureDetector.queueEvent s0 d k now = s0) ∧
      (∀ now : Nat, GestureDetector.checkAllPendingGestures s0 now = s0) ∧
      (GestureDetector.flushEmissions s0).2 = []) ∧
    (GestureDetector.destroy s).isStopped = true ∧
    GestureDetector.destroy (GestureDetector.destroy s) = GestureDetector.destroy s := by
  refine ⟨?_, rfl, ?_⟩
  · intro s0 hstop
    refine ⟨?_, ?_, ?_⟩
    · intro d k now
      unfold GestureDetector.queueEvent
      by_cases h1 : 100 ≤ s0.eventQueue.length
      · rw [if_pos h1]
      · rw [if_neg h1, if_pos hstop]
    · intro now
      unfold GestureDetector.checkAllPendingGestures
      rw [if_pos hstop]
    · unfold GestureDetector.flushEmissions GestureDetector.notifyListeners
      simp only [hstop, if_true]
      exact flatten_map_nil s0.pendingEmissions
  · unfold GestureDetector.destroy
    simp [List.map_map, Function.comp_def]

theorem destroy_idempotent_final_witness :
    (GestureDetector.destroy
        ⟨[("W", {})], ⟨355, 40, 80, 145, 200, 300, 450⟩, fun _ => true, [], [],
         false, [⟨"W", ⟨.single, .normal⟩⟩]⟩).isStopped = true ∧
    (GestureDetector.flushEmissions
        ⟨[("W", {})], ⟨355, 40, 80, 145, 200, 300, 450⟩, fun _ => true, [], [],
         true, [⟨"W", ⟨.single, .normal⟩⟩]⟩).2 = [] :=
  ⟨(destroy_idempotent_final
      ⟨[("W", {})], ⟨355, 40, 80, 145, 200, 300, 450⟩, fun _ => true, [], [],
       false, [⟨"W", ⟨.single, .normal⟩⟩]⟩).2.1,
   ((destroy_idempotent_final
      ⟨[("W", {})], ⟨355, 40, 80, 145, 200, 300, 450⟩, fun _ => true, [], [],
       false, [⟨"W", ⟨.single, .normal⟩⟩]⟩).1
      ⟨[("W", {})], ⟨355, 40, 80, 145, 200, 300, 450⟩, fun _ => true, [], [],
       true, [⟨"W", ⟨.single, .normal⟩⟩]⟩ rfl).2.2⟩

/-- C10: for any button other than `"MIDDLE_CLICK"` both mouse entry points
return the detector state unchanged (nothing is enqueued and no machine is
touched), although `LEFT_CLICK` and `RIGHT_CLICK` are declared input keys —
so those two keys can never produce a gesture through the mouse entry
points. -/
theorem mouse_entry_points_only_middle_click (s : DetectorState) (button : String)
    (now : Nat) (h : ¬ button = "MIDDLE_CLICK") :
    GestureDetector.handleMouseDown s button now = s ∧
    GestureDetector.handleMouseUp s button now = s ∧
    INPUT_KEYS.contains "LEFT_CLICK" = true ∧
    INPUT_KEYS.contains "RIGHT_CLICK" = true ∧
    ¬ ("LEFT_CLICK" : String) = "MIDDLE_CLICK" ∧
    ¬ ("RIGHT_CLICK" : String) = "MIDDLE_CLICK" := by
  refine ⟨?_, ?_, by decide, by decide, by decide, by decide⟩
  · unfold GestureDetector.handleMouseDown
    simp [h]
  · unfold GestureDetector.handleMouseUp
    simp [h]

theorem mouse_entry_points_only_middle_click_witness :
    ¬ ("LEFT_CLICK" : String) = "MIDDLE_CLICK" ∧
    GestureDetector.handleMouseDown
        ⟨[("W", {})], ⟨355, 40, 80, 145, 200, 300, 450⟩, fun _ => true, [], [],
         false, []⟩ "LEFT_CLICK" 3 =
      ⟨[("W", {})], ⟨355, 40, 80, 145, 200, 300, 450⟩, fun _ => true, [], [],
       false, []⟩ :=
  ⟨by decide,
    (mouse_entry_points_only_middle_click
      ⟨[("W", {})], ⟨355, 40, 80, 145, 200, 300, 450⟩, fun _ => true, [], [],
       false, []⟩ "LEFT_CLICK" 3 (by decide)).1⟩

end AgentSupport
